/-
Verification of the DC circuit simulator (`circuit_sim.py`, MNA-based solver).

Shallow embedding conventions:
* Python floats are idealised as exact rationals (`ℚ`); every claim about
  numeric results is settled in exact arithmetic (tolerances such as 1e-9
  are subsumed by exact equality).
* Python exceptions are modelled with `Except String`; a raised exception
  discards all local state, so a function whose only observable effects are
  its return value and mutations of the `Circuit` object is modelled as a
  function returning the updated `Circuit` together with an
  `Except String result`.
* `numpy` dense arrays are modelled as total functions `Nat → Nat → ℚ`
  (resp. `Nat → ℚ`) with explicit size bookkeeping; `np.linalg.solve` is
  modelled by exact Gaussian elimination over `ℚ`, which returns `none`
  exactly on singular systems (mirroring `numpy.linalg.LinAlgError`).
  The optional `scipy.sparse` branch of `Circuit.solve` (taken only when
  scipy is importable, `use_sparse_if_possible` holds and the system size
  exceeds 50) is floating-point library behaviour and is not modelled.
* Python dicts keyed by strings are modelled as association lists with
  dict-style update (replace in place, else append), preserving insertion
  order.
-/
import Mathlib

namespace CircuitSim

instance {ε α : Type} [DecidableEq ε] [DecidableEq α] : DecidableEq (Except ε α) :=
  fun a b =>
    match a, b with
    | .ok x, .ok y => decidable_of_iff (x = y) (by simp)
    | .error x, .error y => decidable_of_iff (x = y) (by simp)
    | .ok _, .error _ => isFalse (by simp)
    | .error _, .ok _ => isFalse (by simp)

/-! ## Value parser (`parse_value` and its helpers)

`parse_value` first tries Python's `float()` on the stripped token, then
matches the regex `([+-]?[0-9]*\.?[0-9]+(?:[eE][+-]?[0-9]+)?)([a-zA-Zµ%]+)`
and dispatches on the suffix. -/

/-- Python whitespace characters stripped by `str.strip()`. -/
def isPyWS (c : Char) : Bool :=
  c = ' ' || c = '\t' || c = '\n' || c = '\r' || c = '\x0b' || c = '\x0c'

/-- Python `str.strip()` on a character list. -/
def trimChars (cs : List Char) : List Char :=
  ((cs.dropWhile isPyWS).reverse.dropWhile isPyWS).reverse

/-- Value of a digit list read in base 10. -/
def natOfDigits (ds : List Char) : Nat :=
  ds.foldl (fun a c => a * 10 + (c.toNat - 48)) 0

/-- Python `float()` on a string, restricted to finite decimal/scientific
literals (the forms `d+`, `d+.`, `d*.d+`, each with an optional sign and an
optional `e`/`E` exponent).  The special forms `inf`/`nan` and digit
underscores are outside the rational model and are not accepted here; no
claim exercises them.  Returns `none` where `float()` raises `ValueError`. -/
def pyFloatChars (cs : List Char) : Option ℚ :=
  let cs := trimChars cs
  let sgn : ℚ × List Char :=
    match cs with
    | '+' :: t => (1, t)
    | '-' :: t => (-1, t)
    | _ => (1, cs)
  let mantExp := sgn.2.span (fun c => c ≠ 'e' ∧ c ≠ 'E')
  let mv : Option ℚ :=
    let ds := mantExp.1.span Char.isDigit
    match ds.2 with
    | [] => if ds.1.isEmpty then none else some (natOfDigits ds.1 : ℚ)
    | '.' :: fr =>
        if fr.all Char.isDigit ∧ (¬ ds.1.isEmpty ∨ ¬ fr.isEmpty) then
          some ((natOfDigits ds.1 : ℚ) + (natOfDigits fr : ℚ) / (10 : ℚ) ^ fr.length)
        else none
    | _ => none
  let ev : Option ℤ :=
    match mantExp.2 with
    | [] => some 0
    | _ :: t =>
        let se : ℤ × List Char :=
          match t with
          | '+' :: t2 => (1, t2)
          | '-' :: t2 => (-1, t2)
          | _ => (1, t)
        if ¬ se.2.isEmpty ∧ se.2.all Char.isDigit then
          some (se.1 * (natOfDigits se.2 : ℤ))
        else none
  match mv, ev with
  | some m, some e => some (sgn.1 * m * (10 : ℚ) ^ e)
  | _, _ => none

/-- Python `float()` on a `String`. -/
def pyFloat (s : String) : Option ℚ := pyFloatChars s.data

/-- Characters of the regex class `[a-zA-Zµ%]` (the suffix group). -/
def isSufChar (c : Char) : Bool :=
  ('a' ≤ c ∧ c ≤ 'z') || ('A' ≤ c ∧ c ≤ 'Z') || c = 'µ' || c = '%'

/-- Does a character list match the numeric group
`[+-]?[0-9]*\.?[0-9]+(?:[eE][+-]?[0-9]+)?` exactly? -/
def matchesNumGroup (cs : List Char) : Bool :=
  let cs := match cs with
    | '+' :: t => t
    | '-' :: t => t
    | _ => cs
  let mantExp := cs.span (fun c => c ≠ 'e' ∧ c ≠ 'E')
  let mantOK :=
    let ds := mantExp.1.span Char.isDigit
    match ds.2 with
    | [] => ¬ ds.1.isEmpty
    | '.' :: fr => fr.all Char.isDigit ∧ ¬ fr.isEmpty
    | _ => false
  let expOK :=
    match mantExp.2 with
    | [] => true
    | _ :: t =>
        let t2 := match t with
          | '+' :: t2 => t2
          | '-' :: t2 => t2
          | _ => t
        ¬ t2.isEmpty ∧ t2.all Char.isDigit
  mantOK && expOK

/-- Model of `re.fullmatch(r"([+-]?[0-9]*\.?[0-9]+(?:[eE][+-]?[0-9]+)?)([a-zA-Zµ%]+)", token)`.
Since the suffix group contains no digits and the numeric group always ends in
a digit, a full match splits the token exactly at the start of its maximal
trailing run of `[a-zA-Zµ%]` characters; the match succeeds iff that run is
nonempty and the remaining prefix matches the numeric group. -/
def regexSplitChars (cs : List Char) : Option (List Char × List Char) :=
  let suf := (cs.reverse.takeWhile isSufChar).reverse
  let num := cs.take (cs.length - suf.length)
  if ¬ suf.isEmpty ∧ matchesNumGroup num then some (num, suf) else none

/-- The `SI_PREFIXES` table (single-character keys). -/
def siPrefixTable : List (Char × ℚ) :=
  [('G', 1000000000), ('M', 1000000), ('k', 1000), ('K', 1000),
   ('m', 1 / 1000), ('u', 1 / 1000000), ('µ', 1 / 1000000),
   ('n', 1 / 1000000000), ('p', 1 / 1000000000000)]

/-- Dictionary lookup in `SI_PREFIXES`. -/
def siLookup (c : Char) : Option ℚ := siPrefixTable.lookup c

/-- Function `parse_value(token)`: try `float(token)` directly; otherwise match the
numeric+suffix regex; a suffix ending in `%` goes to the percent branch
(which calls `float(suf[:-1])` — on an all-`[a-zA-Zµ%]` string this call
itself always raises `ValueError`); a single-character suffix that is a key
of `SI_PREFIXES` scales directly; otherwise the first suffix character that
is a known prefix is applied; else a `Sufijo desconocido` error is raised.
Errors are `Except.error` carrying the Python exception message. -/
def parse_value (token : String) : Except String ℚ :=
  let cs := trimChars token.data
  match pyFloatChars cs with
  | some v => Except.ok v
  | none =>
    match regexSplitChars cs with
    | none => Except.error ("No se pudo parsear el valor: '" ++ String.mk cs ++ "'")
    | some (num, suf) =>
      let base := (pyFloatChars num).getD 0
      if suf.getLast? = some '%' then
        match pyFloatChars suf.dropLast with
        | some p => Except.ok (base * (p / 100))
        | none =>
            Except.error ("could not convert string to float: '" ++
              String.mk suf.dropLast ++ "'")
      else if suf.length = 1 ∧ (siLookup (suf.headD ' ')).isSome then
        Except.ok (base * (siLookup (suf.headD ' ')).getD 0)
      else
        match suf.find? (fun c => (siLookup c).isSome) with
        | some c => Except.ok (base * (siLookup c).getD 0)
        | none =>
            Except.error ("Sufijo desconocido al parsear valor: '" ++ String.mk suf ++ "'")


/-! ## Circuit data model -/

/-- Dataclass `Resistor(name, n1, n2, value)`. -/
structure Resistor where
  name : String
  n1 : String
  n2 : String
  value : ℚ
deriving DecidableEq

/-- Dataclass `VSource(name, n_plus, n_minus, value)`. -/
structure VSource where
  name : String
  n_plus : String
  n_minus : String
  value : ℚ
deriving DecidableEq

/-- Dataclass `ISource(name, n_plus, n_minus, value)`. -/
structure ISource where
  name : String
  n_plus : String
  n_minus : String
  value : ℚ
deriving DecidableEq

instance : Inhabited VSource := ⟨⟨"", "", "", 0⟩⟩

/-- Class `Circuit`: ordered element lists plus the node set.  The Python node set
is modelled as a duplicate-free list (membership insert); only membership and
the sorted view `unknownsOf` are ever consumed. -/
structure Circuit where
  resistors : List Resistor
  vsources : List VSource
  isources : List ISource
  nodes : List String
deriving DecidableEq

/-- The `Circuit()` constructor. -/
def Circuit.empty : Circuit := ⟨[], [], [], []⟩

/-- The `GND` alias applied inside `_add_node`:
`if node.upper() == 'GND': node = '0'`. -/
def normalizeNode (n : String) : String :=
  if String.mk (n.data.map Char.toUpper) = "GND" then "0" else n

/-- Method `Circuit._add_node`: normalise the label and insert it into the set. -/
def addNodeSet (ns : List String) (n : String) : List String :=
  let n := normalizeNode n
  if n ∈ ns then ns else ns ++ [n]

/-- Method `Circuit.add_resistor` (note: the element itself keeps the raw labels,
only the node set sees the `GND` normalisation). -/
def Circuit.add_resistor (c : Circuit) (name n1 n2 : String) (R : ℚ) : Circuit :=
  { c with resistors := c.resistors ++ [⟨name, n1, n2, R⟩],
           nodes := addNodeSet (addNodeSet c.nodes n1) n2 }

/-- Method `Circuit.add_vsource`. -/
def Circuit.add_vsource (c : Circuit) (name np nm : String) (V : ℚ) : Circuit :=
  { c with vsources := c.vsources ++ [⟨name, np, nm, V⟩],
           nodes := addNodeSet (addNodeSet c.nodes np) nm }

/-- Method `Circuit.add_isource`. -/
def Circuit.add_isource (c : Circuit) (name np nm : String) (I : ℚ) : Circuit :=
  { c with isources := c.isources ++ [⟨name, np, nm, I⟩],
           nodes := addNodeSet (addNodeSet c.nodes np) nm }

/-- Step `if '0' not in self.nodes: self.nodes.add('0')` of `node_index_map`. -/
def ensureZero (ns : List String) : List String :=
  if "0" ∈ ns then ns else ns ++ ["0"]

/-- Computation `sorted([n for n in self.nodes if n != '0'])`: the unknown (non-reference)
node labels in ascending label order (`List.insertionSort` realises Python's
`sorted`). -/
def unknownsOf (c : Circuit) : List String :=
  List.insertionSort (· ≤ ·) ((ensureZero c.nodes).filter (fun n => n ≠ "0"))

/-- Method `Circuit.node_index_map`: returns the unknown-label list (the index map is
position in this list) together with the mutated circuit (the method inserts
`'0'` into `self.nodes`). -/
def Circuit.node_index_map (c : Circuit) : List String × Circuit :=
  (unknownsOf c, { c with nodes := ensureZero c.nodes })

/-- Lookup `idx_map[n]` for a node known to be registered: position in `unknowns`. -/
def nodeIdx (u : List String) (n : String) : Nat := u.indexOf n

/-! ## MNA assembly (`Circuit.assemble_mna`)

`numpy` arrays are modelled as total functions with explicit sizes. -/

/-- In-place `A[i,j] += d` on a functional matrix. -/
def matAdd (A : Nat → Nat → ℚ) (i j : Nat) (d : ℚ) : Nat → Nat → ℚ :=
  fun i2 j2 => if i2 = i ∧ j2 = j then A i2 j2 + d else A i2 j2

/-- In-place `A[i,j] = v`. -/
def matSet (A : Nat → Nat → ℚ) (i j : Nat) (v : ℚ) : Nat → Nat → ℚ :=
  fun i2 j2 => if i2 = i ∧ j2 = j then v else A i2 j2

/-- In-place `v[i] += d`. -/
def vecAdd (v : Nat → ℚ) (i : Nat) (d : ℚ) : Nat → ℚ :=
  fun i2 => if i2 = i then v i2 + d else v i2

/-- In-place `v[i] = x`. -/
def vecSet (v : Nat → ℚ) (i : Nat) (x : ℚ) : Nat → ℚ :=
  fun i2 => if i2 = i then x else v i2

/-- The loop body `for r in self.resistors:` stamping `G`. -/
def stampResistor (u : List String) (G : Nat → Nat → ℚ) (r : Resistor) :
    Nat → Nat → ℚ :=
  let g := 1 / r.value
  let G1 := if r.n1 ≠ "0" then matAdd G (nodeIdx u r.n1) (nodeIdx u r.n1) g else G
  let G2 := if r.n2 ≠ "0" then matAdd G1 (nodeIdx u r.n2) (nodeIdx u r.n2) g else G1
  if r.n1 ≠ "0" ∧ r.n2 ≠ "0" then
    matAdd (matAdd G2 (nodeIdx u r.n1) (nodeIdx u r.n2) (-g))
      (nodeIdx u r.n2) (nodeIdx u r.n1) (-g)
  else G2

/-- The loop body `for src in self.isources:` stamping `Ivec`. -/
def stampISource (u : List String) (v : Nat → ℚ) (s : ISource) : Nat → ℚ :=
  let v1 := if s.n_plus ≠ "0" then vecAdd v (nodeIdx u s.n_plus) (-s.value) else v
  if s.n_minus ≠ "0" then vecAdd v1 (nodeIdx u s.n_minus) s.value else v1

/-- The loop body `for k, vs in enumerate(self.vsources):` stamping `B`/`E`. -/
def stampVSource (u : List String) (BE : (Nat → Nat → ℚ) × (Nat → ℚ))
    (kv : Nat × VSource) : (Nat → Nat → ℚ) × (Nat → ℚ) :=
  let E1 := vecSet BE.2 kv.1 kv.2.value
  let B1 := if kv.2.n_plus ≠ "0" then
      matSet BE.1 (nodeIdx u kv.2.n_plus) kv.1 1 else BE.1
  let B2 := if kv.2.n_minus ≠ "0" then
      matSet B1 (nodeIdx u kv.2.n_minus) kv.1 (-1) else B1
  (B2, E1)

/-- The assembled system `A·x = z` (`A`, `z`, sizes, unknown labels). -/
structure MNASystem where
  N : Nat
  M : Nat
  A : Nat → Nat → ℚ
  z : Nat → ℚ
  unknowns : List String

/-- The matrix/vector construction of `assemble_mna` for a given unknown
list `u` (all node lookups succeed by assumption): stamp `G`, `Ivec`, `B`,
`E`, then `A = [[G,B],[Bᵀ,0]]`, `z = [Ivec;E]` when `M > 0`, else `A = G`,
`z = Ivec`. -/
def assembleWith (u : List String) (c : Circuit) : MNASystem :=
  let N := u.length
  let M := c.vsources.length
  let G := c.resistors.foldl (stampResistor u) (fun _ _ => 0)
  let Ivec := c.isources.foldl (stampISource u) (fun _ => 0)
  let BE := (List.enumFrom 0 c.vsources).foldl (stampVSource u)
    (fun _ _ => 0, fun _ => 0)
  let A : Nat → Nat → ℚ :=
    if 0 < M then
      fun i j =>
        if i < N then (if j < N then G i j else BE.1 i (j - N))
        else (if j < N then BE.1 j (i - N) else 0)
    else G
  let z : Nat → ℚ :=
    if 0 < M then (fun i => if i < N then Ivec i else BE.2 (i - N)) else Ivec
  ⟨N, M, A, z, u⟩

/-- The element terminal labels in the order the assembly loops read them:
resistors (`n1`, `n2`), then current sources, then voltage sources. -/
def Circuit.elementNodes (c : Circuit) : List String :=
  (c.resistors.map (fun r => [r.n1, r.n2])).flatten ++
  (c.isources.map (fun s => [s.n_plus, s.n_minus])).flatten ++
  (c.vsources.map (fun v => [v.n_plus, v.n_minus])).flatten

/-- First element terminal whose `idx_map` lookup raises `KeyError`: a label
that is not `'0'` and not among the unknowns (this happens exactly for
elements added with a literal `GND`-cased label, since `_add_node` stored the
normalised `'0'` instead). -/
def firstMissingNode (u : List String) (c : Circuit) : Option String :=
  c.elementNodes.find? (fun n => n ≠ "0" ∧ n ∉ u)

/-- Method `Circuit.assemble_mna`: mutates the node set via `node_index_map`, then
either raises `KeyError` (first unregistered element label) or returns the
assembled system.  A raised `KeyError` discards the locally built arrays, so
checking all lookups up front is observably equivalent to the interleaved
lookups of the source. -/
def Circuit.assemble_mna (c : Circuit) : Circuit × Except String MNASystem :=
  let p := c.node_index_map
  (p.2,
    match firstMissingNode p.1 p.2 with
    | some n => Except.error ("KeyError: '" ++ n ++ "'")
    | none => Except.ok (assembleWith p.1 p.2))

/-! ## Linear solver and `Circuit.solve`

`np.linalg.solve` is modelled by exact Gaussian elimination on the augmented
system; it returns `none` exactly when forward elimination finds no nonzero
pivot, which over `ℚ` is the singular case in which `numpy` raises
`LinAlgError("Singular matrix")`. -/

/-- Dot product of two coefficient lists. -/
def dotQ (xs ys : List ℚ) : ℚ := (List.zipWith (· * ·) xs ys).sum

/-- One elimination step: reduce row `r` by the pivot row `p` (both with a
leading column entry), dropping the leading column. -/
def elimRow (p r : List ℚ) : List ℚ :=
  let f := r.headD 0 / p.headD 0
  List.zipWith (fun a b => a - f * b) r.tail p.tail

/-- Forward elimination with back-substitution on an augmented `n×(n+1)`
system, by recursion on `n`.  Returns `none` when no nonzero pivot exists in
the current leading column (singular system). -/
def gaussAux : Nat → List (List ℚ) → Option (List ℚ)
  | 0, _ => some []
  | n + 1, rows =>
    let i := rows.findIdx (fun r => r.headD 0 ≠ 0)
    if i < rows.length then
      let p := rows.getD i []
      let rest := rows.eraseIdx i
      match gaussAux n (rest.map (elimRow p)) with
      | none => none
      | some xs =>
          some (((p.getLastD 0 - dotQ p.tail.dropLast xs) / p.headD 0) :: xs)
    else none

/-- Solve `A·x = b` (square dense system) over `ℚ`. -/
def gaussSolve (A : List (List ℚ)) (b : List ℚ) : Option (List ℚ) :=
  gaussAux A.length (List.zipWith (fun r x => r ++ [x]) A b)

/-- Python-dict assignment `d[k] = v` on an association list: replace in
place if the key is present, else append. -/
def updateAssoc {V : Type} : List (String × V) → String → V → List (String × V)
  | [], k, v => [(k, v)]
  | (k2, v2) :: t, k, v =>
      if k2 = k then (k, v) :: t else (k2, v2) :: updateAssoc t k v

/-- The three result dictionaries of `Circuit.solve`:
`voltages : {node: V}`, `res_currents : {name: (I, n1, n2, R)}`,
`vsrc_currents : {name: I}`. -/
structure SolveOutput where
  voltages : List (String × ℚ)
  res_currents : List (String × (ℚ × String × String × ℚ))
  vsrc_currents : List (String × ℚ)
deriving DecidableEq

/-- Method `Circuit.solve()`: assemble, solve `A·x = z`, and extract results.  The
first component is the post-call circuit state (`node_index_map` mutates the
node set even when the solve later fails).  Only the dense
`np.linalg.solve` path is modelled; the optional scipy sparse branch
(`_HAS_SCIPY and use_sparse_if_possible and size > 50`) is external
floating-point behaviour (see C2). -/
def Circuit.solve (c : Circuit) : Circuit × Except String SolveOutput :=
  let p := c.assemble_mna
  (p.1,
    match p.2 with
    | Except.error e => Except.error e
    | Except.ok sys =>
      let n := sys.N + sys.M
      let Arows := (List.range n).map (fun i => (List.range n).map (fun j => sys.A i j))
      let zvec := (List.range n).map (fun i => sys.z i)
      match gaussSolve Arows zvec with
      | none => Except.error "No se pudo resolver el sistema lineal: Singular matrix"
      | some sol =>
        let voltages := (sys.unknowns.enum.map (fun q => (q.2, q.1))).foldl
          (fun d q => updateAssoc d q.1 (sol.getD q.2 0)) [("0", (0 : ℚ))]
        let res_currents := c.resistors.foldl
          (fun d r =>
            let v1 := ((voltages.lookup r.n1).getD 0)
            let v2 := ((voltages.lookup r.n2).getD 0)
            updateAssoc d r.name ((v1 - v2) / r.value, r.n1, r.n2, r.value)) []
        let vsrc_currents := (List.enumFrom 0 c.vsources).foldl
          (fun d kv =>
            updateAssoc d kv.2.name
              (if 0 < sys.M then sol.getD (sys.N + kv.1) 0 else 0)) []
        Except.ok ⟨voltages, res_currents, vsrc_currents⟩)

/-! ## Netlist parser (`parse_netlist_lines`) -/

/-- Blank lines and comment lines starting with `*`, `#` or `;` (tested on
the stripped line). -/
def isCommentOrBlank (cs : List Char) : Bool :=
  cs.isEmpty || cs.headD ' ' = '*' || cs.headD ' ' = '#' || cs.headD ' ' = ';'

/-- Model of `re.split(r"\s+", line)` on a stripped line: whitespace-separated
tokens. -/
def splitWSAux : List Char → List Char → List String
  | [], acc => if acc.isEmpty then [] else [String.mk acc.reverse]
  | c :: t, acc =>
      if isPyWS c then
        if acc.isEmpty then splitWSAux t [] else String.mk acc.reverse :: splitWSAux t []
      else splitWSAux t (c :: acc)

/-- Token list of a (stripped) line. -/
def splitWS (cs : List Char) : List String := splitWSAux cs []

/-- Token access `parts[i]` (total model of the guarded Python indexing). -/
def tokenAt (parts : List String) (i : Nat) : String := parts.getD i ""

/-- Character `tok[0]` — the first character of the first token (`' '` on the
impossible empty case). -/
def firstCharOf (parts : List String) : Char := (tokenAt parts 0).data.headD ' '

/-- The netlist error wrapper
`RuntimeError(f"Error parseando línea {lineno} ('{line}'): {e}")`. -/
def mkLineErr (lineno : Nat) (line : List Char) (e : String) : String :=
  "Error parseando línea " ++ toString lineno ++ " ('" ++ String.mk line ++ "'): " ++ e

/-- Processing of one netlist line: comments/blank lines are skipped,
recognised element lines (leading `R`/`V`/`I`, ≥ 4 tokens) add an element or
abort with the wrapped parse error, all other lines are skipped with a
console warning (I/O, not part of the return value). -/
def processLine (circ : Circuit) (lineno : Nat) (raw : String) :
    Except String Circuit :=
  let line := trimChars raw.data
  if isCommentOrBlank line then Except.ok circ
  else
    let parts := splitWS line
    let c0 := (firstCharOf parts).toUpper
    if c0 = 'R' ∧ 4 ≤ parts.length then
      match parse_value (tokenAt parts 3) with
      | Except.ok v =>
          Except.ok (circ.add_resistor (tokenAt parts 0) (tokenAt parts 1)
            (tokenAt parts 2) v)
      | Except.error e => Except.error (mkLineErr lineno line e)
    else if c0 = 'V' ∧ 4 ≤ parts.length then
      match parse_value (tokenAt parts 3) with
      | Except.ok v =>
          Except.ok (circ.add_vsource (tokenAt parts 0) (tokenAt parts 1)
            (tokenAt parts 2) v)
      | Except.error e => Except.error (mkLineErr lineno line e)
    else if c0 = 'I' ∧ 4 ≤ parts.length then
      match parse_value (tokenAt parts 3) with
      | Except.ok v =>
          Except.ok (circ.add_isource (tokenAt parts 0) (tokenAt parts 1)
            (tokenAt parts 2) v)
      | Except.error e => Except.error (mkLineErr lineno line e)
    else Except.ok circ

/-- The loop of `parse_netlist_lines` with 1-based line numbers. -/
def parseNetlistGo (circ : Circuit) (lineno : Nat) :
    List String → Except String Circuit
  | [] => Except.ok circ
  | l :: ls =>
    match processLine circ lineno l with
    | Except.ok c2 => parseNetlistGo c2 (lineno + 1) ls
    | Except.error e => Except.error e

/-- Function `parse_netlist_lines(lines)`. -/
def parse_netlist_lines (lines : List String) : Except String Circuit :=
  parseNetlistGo Circuit.empty 1 lines

/-! ## Spec-side (declarative) description of the MNA system (§4.2)

The spec describes each matrix entry as a sum of per-element contributions;
the theorems below prove the imperative stamping loops realise exactly these
sums. -/

/-- Spec §4.2, conductance matrix: the contribution of one resistor to entry
`(i,j)` of `G` — `+g` on the diagonal of each non-reference terminal, `−g`
on both off-diagonal entries pairing two non-reference terminals. -/
def resContrib (u : List String) (r : Resistor) (i j : Nat) : ℚ :=
  let g := 1 / r.value
  (if r.n1 ≠ "0" ∧ i = nodeIdx u r.n1 ∧ j = nodeIdx u r.n1 then g else 0) +
  (if r.n2 ≠ "0" ∧ i = nodeIdx u r.n2 ∧ j = nodeIdx u r.n2 then g else 0) +
  (if (r.n1 ≠ "0" ∧ r.n2 ≠ "0") ∧ i = nodeIdx u r.n1 ∧ j = nodeIdx u r.n2
    then -g else 0) +
  (if (r.n1 ≠ "0" ∧ r.n2 ≠ "0") ∧ i = nodeIdx u r.n2 ∧ j = nodeIdx u r.n1
    then -g else 0)

/-- Spec §4.2: `G[i,j]` as the sum of the resistor contributions. -/
def specG (c : Circuit) (u : List String) (i j : Nat) : ℚ :=
  ((c.resistors.map (fun r => resContrib u r i j)).sum)

/-- Spec §4.2, injected-current vector: one current source's contribution to
row `i` — subtract its value at `n_plus`'s row, add it at `n_minus`'s row
(non-reference rows only). -/
def isContrib (u : List String) (s : ISource) (i : Nat) : ℚ :=
  (if s.n_plus ≠ "0" ∧ i = nodeIdx u s.n_plus then -s.value else 0) +
  (if s.n_minus ≠ "0" ∧ i = nodeIdx u s.n_minus then s.value else 0)

/-- Spec §4.2: `I[i]` as the sum of the current-source contributions. -/
def specI (c : Circuit) (u : List String) (i : Nat) : ℚ :=
  ((c.isources.map (fun s => isContrib u s i)).sum)

/-- Spec §4.2, incidence matrix column of one voltage source: `+1` at
`n_plus`'s row and `−1` at `n_minus`'s row for non-reference terminals
(read as the two sequential assignments of the source: when both terminals
coincide the later `−1` assignment stands). -/
def specColB (u : List String) (vs : VSource) (i : Nat) : ℚ :=
  if vs.n_minus ≠ "0" ∧ i = nodeIdx u vs.n_minus then -1
  else if vs.n_plus ≠ "0" ∧ i = nodeIdx u vs.n_plus then 1
  else 0

/-- Spec §4.2: `B[i,k]` for voltage source `k` (insertion order). -/
def specB (c : Circuit) (u : List String) (i k : Nat) : ℚ :=
  specColB u (c.vsources.getD k default) i

/-- Spec §4.2: `E[k] =` value of voltage source `k`. -/
def specEvec (c : Circuit) (k : Nat) : ℚ := (c.vsources.getD k default).value

/-- The system `assemble_mna` returns on success. -/
def mnaOf (c : Circuit) : MNASystem := assembleWith (unknownsOf c) c

/-! ## Concrete circuits used by the claim theorems -/

/-- The voltage-divider netlist of the spec scenario and the test suite. -/
def dividerLines : List String := ["V1 1 0 12", "R1 1 2 1000", "R2 2 0 2000"]

/-- Open circuit: a resistor to an isolated pair of nodes, no path to the
reference node — the assembled `G` is singular. -/
def openCircuit : Circuit := Circuit.empty.add_resistor "R1" "1" "2" 100

/-- A resistor with a literal `GND` terminal label. -/
def gndCircuit : Circuit := Circuit.empty.add_resistor "R1" "1" "GND" 100

/-- A small circuit with all three element kinds (C1 witness input). -/
def mixedCircuit : Circuit :=
  ((Circuit.empty.add_vsource "V1" "1" "0" 5).add_resistor "R1" "1" "2" 10).add_isource
    "I1" "2" "0" (1 / 2)

/-- Alphabetic suffix characters (the regex suffix class without `%`). -/
def isAlphaSufChar (c : Char) : Bool := isSufChar c && c != '%'

/-- Is an `Except` result an error? -/
def exceptIsErr {α : Type} : Except String α → Bool
  | Except.error _ => true
  | Except.ok _ => false

/-- Does this line abort `parse_netlist_lines`?  Exactly the recognised
element lines (leading `R`/`V`/`I` in any case, at least 4 tokens) whose
value token fails to parse. -/
def lineAborts (raw : String) : Bool :=
  let line := trimChars raw.data
  if isCommentOrBlank line then false
  else
    let parts := splitWS line
    let c0 := (firstCharOf parts).toUpper
    (decide (c0 = 'R') || decide (c0 = 'V') || decide (c0 = 'I')) &&
      decide (4 ≤ parts.length) && exceptIsErr (parse_value (tokenAt parts 3))

/-- The inner `parse_value` error message of an aborting line. -/
def lineErrOf (raw : String) : String :=
  match parse_value (tokenAt (splitWS (trimChars raw.data)) 3) with
  | Except.error e => e
  | Except.ok _ => ""

/-- The circuit update a non-aborting line performs (comments, unrecognised
lines and short lines leave the circuit unchanged). -/
def lineApply (circ : Circuit) (raw : String) : Circuit :=
  let line := trimChars raw.data
  if isCommentOrBlank line then circ
  else
    let parts := splitWS line
    let c0 := (firstCharOf parts).toUpper
    if c0 = 'R' ∧ 4 ≤ parts.length then
      match parse_value (tokenAt parts 3) with
      | Except.ok v =>
          circ.add_resistor (tokenAt parts 0) (tokenAt parts 1) (tokenAt parts 2) v
      | Except.error _ => circ
    else if c0 = 'V' ∧ 4 ≤ parts.length then
      match parse_value (tokenAt parts 3) with
      | Except.ok v =>
          circ.add_vsource (tokenAt parts 0) (tokenAt parts 1) (tokenAt parts 2) v
      | Except.error _ => circ
    else if c0 = 'I' ∧ 4 ≤ parts.length then
      match parse_value (tokenAt parts 3) with
      | Except.ok v =>
          circ.add_isource (tokenAt parts 0) (tokenAt parts 1) (tokenAt parts 2) v
      | Except.error _ => circ
    else circ

/-- Lines skipped without touching the circuit: blanks, comments,
unrecognised leading characters and lines with fewer than 4 tokens. -/
def lineSkipped (raw : String) : Bool :=
  let line := trimChars raw.data
  if isCommentOrBlank line then true
  else
    let parts := splitWS line
    let c0 := (firstCharOf parts).toUpper
    !((decide (c0 = 'R') || decide (c0 = 'V') || decide (c0 = 'I')) &&
      decide (4 ≤ parts.length))

/-- Demonstration input for the C8 witness. -/
def demoLines : List String := ["# comment", "X9 1 2", "R1 1 2 zz", "V1 1 0 5"]

/-! ### Pointwise characterisation of the stamping loops -/

theorem matAdd_apply (A : Nat → Nat → ℚ) (i j : Nat) (d : ℚ) (i2 j2 : Nat) :
    matAdd A i j d i2 j2 = A i2 j2 + (if i2 = i ∧ j2 = j then d else 0) := by
  unfold matAdd
  by_cases h : i2 = i ∧ j2 = j <;> simp [h]

theorem matSet_apply (A : Nat → Nat → ℚ) (i j : Nat) (v : ℚ) (i2 j2 : Nat) :
    matSet A i j v i2 j2 = if i2 = i ∧ j2 = j then v else A i2 j2 := rfl

theorem vecAdd_apply (v : Nat → ℚ) (i : Nat) (d : ℚ) (i2 : Nat) :
    vecAdd v i d i2 = v i2 + (if i2 = i then d else 0) := by
  unfold vecAdd
  by_cases h : i2 = i <;> simp [h]

theorem stampResistor_apply (u : List String) (G : Nat → Nat → ℚ)
    (r : Resistor) (i j : Nat) :
    stampResistor u G r i j = G i j + resContrib u r i j := by
  unfold stampResistor resContrib
  by_cases h1 : r.n1 = "0" <;> by_cases h2 : r.n2 = "0" <;>
    simp [h1, h2, matAdd_apply] <;> ring

theorem foldl_stampResistor (u : List String) (rs : List Resistor)
    (G0 : Nat → Nat → ℚ) (i j : Nat) :
    (rs.foldl (stampResistor u) G0) i j =
      G0 i j + ((rs.map (fun r => resContrib u r i j)).sum) := by
  induction rs generalizing G0 with
  | nil => simp
  | cons r t ih =>
      simp only [List.foldl_cons, List.map_cons, List.sum_cons, ih,
        stampResistor_apply]
      ring

theorem stampISource_apply (u : List String) (v : Nat → ℚ) (s : ISource)
    (i : Nat) :
    stampISource u v s i = v i + isContrib u s i := by
  unfold stampISource isContrib
  by_cases h1 : s.n_plus = "0" <;> by_cases h2 : s.n_minus = "0" <;>
    simp [h1, h2, vecAdd_apply] <;> ring

theorem foldl_stampISource (u : List String) (ss : List ISource)
    (v0 : Nat → ℚ) (i : Nat) :
    (ss.foldl (stampISource u) v0) i =
      v0 i + ((ss.map (fun s => isContrib u s i)).sum) := by
  induction ss generalizing v0 with
  | nil => simp
  | cons s t ih =>
      simp only [List.foldl_cons, List.map_cons, List.sum_cons, ih,
        stampISource_apply]
      ring

theorem stampVSource_fst (u : List String) (BE : (Nat → Nat → ℚ) × (Nat → ℚ))
    (k : Nat) (vs : VSource) (i k2 : Nat) :
    (stampVSource u BE (k, vs)).1 i k2 =
      if k2 = k then
        (if vs.n_minus ≠ "0" ∧ i = nodeIdx u vs.n_minus then -1
         else if vs.n_plus ≠ "0" ∧ i = nodeIdx u vs.n_plus then 1
         else BE.1 i k2)
      else BE.1 i k2 := by
  unfold stampVSource
  by_cases hm : vs.n_minus = "0" <;> by_cases hp : vs.n_plus = "0" <;>
    simp only [hm, hp, if_true, if_false, ne_eq, not_true_eq_false,
      not_false_eq_true, ite_true, ite_false, matSet_apply] <;>
    split_ifs <;> simp_all

theorem stampVSource_snd (u : List String) (BE : (Nat → Nat → ℚ) × (Nat → ℚ))
    (k : Nat) (vs : VSource) (k2 : Nat) :
    (stampVSource u BE (k, vs)).2 k2 = if k2 = k then vs.value else BE.2 k2 := by
  unfold stampVSource vecSet
  by_cases hm : vs.n_minus = "0" <;> by_cases hp : vs.n_plus = "0" <;> simp [hm, hp]

theorem foldl_stampVSource_snd (u : List String) (vss : List VSource) :
    ∀ (a : Nat) (BE : (Nat → Nat → ℚ) × (Nat → ℚ)) (k : Nat),
      ((List.enumFrom a vss).foldl (stampVSource u) BE).2 k =
        if a ≤ k ∧ k < a + vss.length then (vss.getD (k - a) default).value
        else BE.2 k := by
  induction vss with
  | nil =>
      intro a BE k
      rw [show List.enumFrom a ([] : List VSource) = [] from rfl, List.foldl_nil,
        List.length_nil, if_neg (by omega)]
  | cons v t ih =>
      intro a BE k
      rw [show List.enumFrom a (v :: t) = (a, v) :: List.enumFrom (a + 1) t from rfl,
        List.foldl_cons, ih, stampVSource_snd, List.length_cons]
      split_ifs with h1 h2 h3 h4 h5
      · have hs : k - a = (k - (a + 1)) + 1 := by omega
        rw [hs, List.getD_cons_succ]
      · exfalso; omega
      · rw [show k - a = 0 from by omega, List.getD_cons_zero]
      · exfalso; omega
      · exfalso; omega
      · rfl

theorem foldl_stampVSource_fst (u : List String) (vss : List VSource) :
    ∀ (a : Nat) (BE : (Nat → Nat → ℚ) × (Nat → ℚ)) (i k : Nat),
      ((List.enumFrom a vss).foldl (stampVSource u) BE).1 i k =
        if a ≤ k ∧ k < a + vss.length then
          (if (vss.getD (k - a) default).n_minus ≠ "0" ∧
              i = nodeIdx u (vss.getD (k - a) default).n_minus then -1
           else if (vss.getD (k - a) default).n_plus ≠ "0" ∧
              i = nodeIdx u (vss.getD (k - a) default).n_plus then 1
           else BE.1 i k)
        else BE.1 i k := by
  induction vss with
  | nil =>
      intro a BE i k
      rw [show List.enumFrom a ([] : List VSource) = [] from rfl, List.foldl_nil,
        List.length_nil, if_neg (by omega)]
  | cons v t ih =>
      intro a BE i k
      rw [show List.enumFrom a (v :: t) = (a, v) :: List.enumFrom (a + 1) t from rfl,
        List.foldl_cons, ih, stampVSource_fst]
      rw [List.length_cons]
      by_cases hk : k = a
      · have h1 : ¬ (a + 1 ≤ k ∧ k < a + 1 + t.length) := by omega
        have h2 : a ≤ k ∧ k < a + (t.length + 1) := by omega
        rw [if_neg h1, if_pos hk, if_pos h2, show k - a = 0 from by omega,
          List.getD_cons_zero]
      · by_cases hr : a + 1 ≤ k ∧ k < a + 1 + t.length
        · have h2 : a ≤ k ∧ k < a + (t.length + 1) := by omega
          have hs : k - a = (k - (a + 1)) + 1 := by omega
          rw [if_pos hr, if_pos h2, hs, List.getD_cons_succ]
          -- remaining mismatch only in the innermost else branch
          by_cases hm : (t.getD (k - (a + 1)) default).n_minus ≠ "0" ∧
              i = nodeIdx u (t.getD (k - (a + 1)) default).n_minus
          · rw [if_pos hm, if_pos hm]
          · rw [if_neg hm, if_neg hm]
            by_cases hp : (t.getD (k - (a + 1)) default).n_plus ≠ "0" ∧
                i = nodeIdx u (t.getD (k - (a + 1)) default).n_plus
            · rw [if_pos hp, if_pos hp]
            · rw [if_neg hp, if_neg hp, if_neg hk]
        · have h2 : ¬ (a ≤ k ∧ k < a + (t.length + 1)) := by omega
          rw [if_neg hr, if_neg h2, if_neg hk]

/-- C1: For every circuit whose element labels are all registered (no literal
`GND` label, i.e. no `KeyError`), `assemble_mna` builds exactly the MNA
system of the spec: unknowns are the non-reference nodes in sorted label
order; `G[i,j]` is the sum of the per-resistor conductance contributions
(diagonal `+g` for each non-reference terminal, `−g` on both off-diagonal
entries when both terminals are non-reference); `I[i]` subtracts each current
source's value at `n_plus`'s row and adds it at `n_minus`'s row; voltage
source `k` sets `E[k]` to its value and column `k` of `B` to `+1`/`−1` at the
non-reference rows of `n_plus`/`n_minus`; and the assembled matrix is the
`(N+M)×(N+M)` block matrix `[[G,B],[Bᵀ,0]]` with right-hand side `[I;E]`
(for `M = 0` the `B`/`E` clauses are vacuous and the system is `G·v = I`). -/
theorem assemble_mna_matches_spec (c : Circuit)
    (hok : firstMissingNode (unknownsOf c) c = none) :
    (c.assemble_mna).2 = Except.ok (mnaOf c) ∧
    (unknownsOf c).Sorted (· ≤ ·) ∧
    (unknownsOf c).Perm ((ensureZero c.nodes).filter (fun n => n ≠ "0")) ∧
    (mnaOf c).N = (unknownsOf c).length ∧
    (mnaOf c).M = c.vsources.length ∧
    (mnaOf c).unknowns = unknownsOf c ∧
    (∀ i j, i < (mnaOf c).N → j < (mnaOf c).N →
      (mnaOf c).A i j = specG c (unknownsOf c) i j) ∧
    (∀ i k, i < (mnaOf c).N → k < (mnaOf c).M →
      (mnaOf c).A i ((mnaOf c).N + k) = specB c (unknownsOf c) i k) ∧
    (∀ k j, k < (mnaOf c).M → j < (mnaOf c).N →
      (mnaOf c).A ((mnaOf c).N + k) j = specB c (unknownsOf c) j k) ∧
    (∀ k k2, k < (mnaOf c).M → k2 < (mnaOf c).M →
      (mnaOf c).A ((mnaOf c).N + k) ((mnaOf c).N + k2) = 0) ∧
    (∀ i, i < (mnaOf c).N → (mnaOf c).z i = specI c (unknownsOf c) i) ∧
    (∀ k, k < (mnaOf c).M → (mnaOf c).z ((mnaOf c).N + k) = specEvec c k) := by
  have hfm : firstMissingNode (unknownsOf c) { c with nodes := ensureZero c.nodes }
      = none := hok
  refine ⟨?_, ?_, ?_, rfl, rfl, rfl, ?_, ?_, ?_, ?_, ?_, ?_⟩
  · simp only [Circuit.assemble_mna, Circuit.node_index_map, hfm]
    rfl
  · exact List.sorted_insertionSort _ _
  · exact List.perm_insertionSort _ _
  · -- top-left block: G entries
    intro i j hi hj
    simp only [mnaOf, assembleWith] at hi hj ⊢
    by_cases hM : 0 < c.vsources.length
    · rw [if_pos hM]
      simp only [if_pos hi, if_pos hj, foldl_stampResistor, specG, zero_add]
    · rw [if_neg hM]
      simp only [foldl_stampResistor, specG, zero_add]
  · -- top-right block: B entries
    intro i k hi hk
    simp only [mnaOf, assembleWith] at hi hk ⊢
    have hM : 0 < c.vsources.length := by omega
    rw [if_pos hM]
    simp only [if_pos hi, if_neg (show ¬ (unknownsOf c).length + k < (unknownsOf c).length
      from by omega), show (unknownsOf c).length + k - (unknownsOf c).length = k
      from by omega]
    rw [foldl_stampVSource_fst, if_pos ⟨Nat.zero_le _, by omega⟩]
    simp only [Nat.sub_zero, specB, specColB]
  · -- bottom-left block: Bᵀ entries
    intro k j hk hj
    simp only [mnaOf, assembleWith] at hk hj ⊢
    have hM : 0 < c.vsources.length := by omega
    rw [if_pos hM]
    simp only [if_neg (show ¬ (unknownsOf c).length + k < (unknownsOf c).length
      from by omega), if_pos hj, show (unknownsOf c).length + k - (unknownsOf c).length = k
      from by omega]
    rw [foldl_stampVSource_fst, if_pos ⟨Nat.zero_le _, by omega⟩]
    simp only [Nat.sub_zero, specB, specColB]
  · -- bottom-right block: zeros
    intro k k2 hk hk2
    simp only [mnaOf, assembleWith] at hk hk2 ⊢
    have hM : 0 < c.vsources.length := by omega
    rw [if_pos hM]
    simp only [if_neg (show ¬ (unknownsOf c).length + k < (unknownsOf c).length
      from by omega), if_neg (show ¬ (unknownsOf c).length + k2 < (unknownsOf c).length
      from by omega)]
  · -- right-hand side, current rows
    intro i hi
    simp only [mnaOf, assembleWith] at hi ⊢
    by_cases hM : 0 < c.vsources.length
    · rw [if_pos hM]
      simp only [if_pos hi, foldl_stampISource, specI, zero_add]
    · rw [if_neg hM]
      simp only [foldl_stampISource, specI, zero_add]
  · -- right-hand side, E rows
    intro k hk
    simp only [mnaOf, assembleWith] at hk ⊢
    have hM : 0 < c.vsources.length := by omega
    rw [if_pos hM]
    simp only [if_neg (show ¬ (unknownsOf c).length + k < (unknownsOf c).length
      from by omega), show (unknownsOf c).length + k - (unknownsOf c).length = k
      from by omega]
    rw [foldl_stampVSource_snd, if_pos ⟨Nat.zero_le _, by omega⟩]
    simp only [Nat.sub_zero, specEvec]

/-- Witness for C1: the hypotheses of `assemble_mna_matches_spec` hold at
`mixedCircuit` and the theorem applies there. -/
theorem assemble_mna_matches_spec_witness :
    firstMissingNode (unknownsOf mixedCircuit) mixedCircuit = none ∧
    (mixedCircuit.assemble_mna).2 = Except.ok (mnaOf mixedCircuit) ∧
    (mnaOf mixedCircuit).A 0 0 = specG mixedCircuit (unknownsOf mixedCircuit) 0 0 :=
  ⟨by with_unfolding_all rfl,
   (assemble_mna_matches_spec mixedCircuit (by with_unfolding_all rfl)).1,
   (assemble_mna_matches_spec mixedCircuit
      (by with_unfolding_all rfl)).2.2.2.2.2.2.1 0 0
      (by with_unfolding_all decide) (by with_unfolding_all decide)⟩

/-- C2 (supporting evaluation): on the open circuit the assembled matrix is
2×2 and singular — both rows annihilate the nonzero vector `(1,1)` — and the
modelled (dense `np.linalg.solve`) path raises the wrapped
`LinAlgError("Singular matrix")` instead of returning values.  The sparse
`scipy` path that the source would take for sizes above 50 is not modelled
(see the claim record): `scipy.sparse.linalg.spsolve` only warns and returns
NaN on singular input. -/
theorem singular_system_dense_path_raises :
    Except.map (fun s => (s.N + s.M, s.A 0 0 + s.A 0 1, s.A 1 0 + s.A 1 1))
      (openCircuit.assemble_mna).2 = Except.ok (2, 0, 0) ∧
    (openCircuit.solve).2 =
      Except.error "No se pudo resolver el sistema lineal: Singular matrix" :=
  ⟨by with_unfolding_all rfl, by with_unfolding_all rfl⟩

/-- C3 (code evaluation at the failing input): adding a resistor with a
terminal labelled `GND` registers node `'0'` (not `'GND'`) in the node set —
that part of the claim holds — but the stored element keeps the literal
`GND` label, so `solve()` raises `KeyError('GND')` instead of succeeding. -/
theorem gnd_label_registers_zero_but_solve_raises :
    gndCircuit.nodes = ["1", "0"] ∧
    (gndCircuit.solve).2 = Except.error "KeyError: 'GND'" :=
  ⟨by with_unfolding_all rfl, by with_unfolding_all rfl⟩

/-- C5 (code evaluation at the failing input): `parse_value("10%")` raises a
`ValueError` — the percent branch computes `float(suf[:-1])` with
`suf = "%"`, i.e. `float("")` — instead of returning `0.10` as both the
claim and the source comment state. -/
theorem percent_token_raises :
    parse_value "10%" = Except.error "could not convert string to float: ''" := by
  with_unfolding_all rfl

/-- C7 (code evaluation): solving the voltage-divider netlist yields exactly
8 V at node `"2"` and 0 V at `"0"` (the claim's voltage part, exact in ℚ so
within any tolerance), resistor current `I(R1) = 1/250 = 0.004 A` — but the
returned `V1` current is `-1/250 = -0.004 A`, the negative of the claimed
current out of the positive terminal. -/
theorem divider_solve_eval :
    (parse_netlist_lines dividerLines).toOption.map (fun c => (c.solve).2) =
      some (Except.ok
        ⟨[("0", 0), ("1", 12), ("2", 8)],
         [("R1", (1 / 250, "1", "2", 1000)), ("R2", (1 / 250, "2", "0", 2000))],
         [("V1", -(1 / 250))]⟩) := by
  with_unfolding_all rfl

/-- C9 counterexample: on the open circuit, `solve()` fails with the
singular-system error, yet the node set is not what it was before the call —
`node_index_map` has inserted `'0'`. -/
theorem solve_failure_mutates_node_set :
    (openCircuit.solve).2 =
      Except.error "No se pudo resolver el sistema lineal: Singular matrix" ∧
    (openCircuit.solve).1.nodes ≠ openCircuit.nodes :=
  ⟨by with_unfolding_all rfl, by with_unfolding_all decide⟩

/-- C9 (amended): `solve()` never changes the element lists, and its only
effect on the node set — whether the solve succeeds or fails — is the
insertion of `'0'` when it was absent. -/
theorem solve_preserves_elements_and_only_adds_zero (c : Circuit) :
    (c.solve).1.resistors = c.resistors ∧
    (c.solve).1.vsources = c.vsources ∧
    (c.solve).1.isources = c.isources ∧
    (c.solve).1.nodes = ensureZero c.nodes :=
  ⟨rfl, rfl, rfl, rfl⟩

/-- C10: solving a freshly constructed empty circuit does not raise; it
returns the voltage mapping `{'0': 0.0}` and two empty current mappings. -/
theorem empty_circuit_solve :
    (Circuit.empty.solve).2 = Except.ok ⟨[("0", 0)], [], []⟩ := by
  with_unfolding_all rfl

/-- C4 counterexample: after adding a resistor between `'1'` and `'2'`, the
node set does not contain `'0'` (it is only inserted by `node_index_map`, at
solve time). -/
theorem add_does_not_register_zero :
    "0" ∉ (Circuit.empty.add_resistor "R1" "1" "2" 100).nodes := by
  with_unfolding_all decide

theorem mem_addNodeSet (ns : List String) (n x : String) :
    x ∈ addNodeSet ns n ↔ x ∈ ns ∨ x = normalizeNode n := by
  unfold addNodeSet
  by_cases h : normalizeNode n ∈ ns
  · simp only [h, if_true]
    exact ⟨Or.inl, fun hx => hx.elim id (fun e => e ▸ h)⟩
  · simp [h, List.mem_append]

theorem zero_mem_ensureZero (ns : List String) : "0" ∈ ensureZero ns := by
  unfold ensureZero
  by_cases h : "0" ∈ ns <;> simp [h]

theorem mem_addNodeSet_two (ns : List String) (n1 n2 x : String) :
    x ∈ addNodeSet (addNodeSet ns n1) n2 ↔
      x ∈ ns ∨ normalizeNode n1 = x ∨ normalizeNode n2 = x := by
  rw [mem_addNodeSet, mem_addNodeSet]
  constructor
  · rintro ((h | h) | h)
    · exact Or.inl h
    · exact Or.inr (Or.inl h.symm)
    · exact Or.inr (Or.inr h.symm)
  · rintro (h | h | h)
    · exact Or.inl (Or.inl h)
    · exact Or.inl (Or.inr h.symm)
    · exact Or.inr h.symm

/-- C4 (amended): the node set contains `'0'` after any `solve()` request;
an `add_resistor`/`add_vsource`/`add_isource` call yields a node set
containing `'0'` iff it already did or one of the referenced terminals
normalises to the reference node (`'0'` or case-insensitive `GND`). -/
theorem zero_node_membership (c : Circuit) (nm n1 n2 : String) (v : ℚ) :
    "0" ∈ (c.solve).1.nodes ∧
    ("0" ∈ (c.add_resistor nm n1 n2 v).nodes ↔
      "0" ∈ c.nodes ∨ normalizeNode n1 = "0" ∨ normalizeNode n2 = "0") ∧
    ("0" ∈ (c.add_vsource nm n1 n2 v).nodes ↔
      "0" ∈ c.nodes ∨ normalizeNode n1 = "0" ∨ normalizeNode n2 = "0") ∧
    ("0" ∈ (c.add_isource nm n1 n2 v).nodes ↔
      "0" ∈ c.nodes ∨ normalizeNode n1 = "0" ∨ normalizeNode n2 = "0") := by
  refine ⟨zero_mem_ensureZero c.nodes, ?_, ?_, ?_⟩ <;>
    exact mem_addNodeSet_two c.nodes n1 n2 "0"

/-! ## General clauses of the value-parser contract (C6) -/

theorem parse_value_direct (t : String) (v : ℚ)
    (h : pyFloatChars (trimChars t.data) = some v) :
    parse_value t = Except.ok v := by
  simp only [parse_value, h]

theorem parse_value_nomatch (t : String)
    (h1 : pyFloatChars (trimChars t.data) = none)
    (h2 : regexSplitChars (trimChars t.data) = none) :
    parse_value t =
      Except.error ("No se pudo parsear el valor: '" ++
        String.mk (trimChars t.data) ++ "'") := by
  simp only [parse_value, h1, h2]

theorem mem_of_getLastQ {l : List Char} {a : Char} (h : l.getLast? = some a) :
    a ∈ l := by
  obtain ⟨hne, hx⟩ := List.mem_getLast?_eq_getLast (show a ∈ l.getLast? from h)
  rw [hx]
  exact List.getLast_mem hne

theorem not_pct_of_alpha {suf : List Char}
    (halpha : suf.all isAlphaSufChar = true) : ¬ suf.getLast? = some '%' := by
  intro hl
  have := List.all_eq_true.mp halpha '%' (mem_of_getLastQ hl)
  simp [isAlphaSufChar] at this

theorem parse_value_single (t : String) (num : List Char) (ch : Char) (q : ℚ)
    (h1 : pyFloatChars (trimChars t.data) = none)
    (h2 : regexSplitChars (trimChars t.data) = some (num, [ch]))
    (h3 : siLookup ch = some q) :
    parse_value t = Except.ok ((pyFloatChars num).getD 0 * q) := by
  have hne : ch ≠ '%' := by
    intro e
    rw [e, show siLookup '%' = none from by with_unfolding_all rfl] at h3
    exact Option.noConfusion h3
  have hpct : ¬ ([ch].getLast? = some '%') := by simp [hne]
  have hcond : [ch].length = 1 ∧ (siLookup ([ch].headD ' ')).isSome :=
    ⟨rfl, by rw [show [ch].headD ' ' = ch from rfl, h3]; rfl⟩
  simp only [parse_value, h1, h2]
  rw [if_neg hpct, if_pos hcond, show [ch].headD ' ' = ch from rfl, h3]
  rfl

theorem parse_value_multi (t : String) (num suf : List Char) (ch : Char) (q : ℚ)
    (h1 : pyFloatChars (trimChars t.data) = none)
    (h2 : regexSplitChars (trimChars t.data) = some (num, suf))
    (hlen : 2 ≤ suf.length) (halpha : suf.all isAlphaSufChar = true)
    (hfind : suf.find? (fun c => (siLookup c).isSome) = some ch)
    (h3 : siLookup ch = some q) :
    parse_value t = Except.ok ((pyFloatChars num).getD 0 * q) := by
  have hcond : ¬ (suf.length = 1 ∧ (siLookup (suf.headD ' ')).isSome) := by
    rintro ⟨hl, _⟩; omega
  simp only [parse_value, h1, h2]
  rw [if_neg (not_pct_of_alpha halpha), if_neg hcond, hfind]
  simp [h3]

theorem parse_value_unknown_suffix (t : String) (num suf : List Char)
    (h1 : pyFloatChars (trimChars t.data) = none)
    (h2 : regexSplitChars (trimChars t.data) = some (num, suf))
    (halpha : suf.all isAlphaSufChar = true)
    (hnone : ∀ c ∈ suf, siLookup c = none) :
    parse_value t =
      Except.error ("Sufijo desconocido al parsear valor: '" ++
        String.mk suf ++ "'") := by
  have hcond : ¬ (suf.length = 1 ∧ (siLookup (suf.headD ' ')).isSome) := by
    rintro ⟨hl, hs⟩
    cases suf with
    | nil => simp at hl
    | cons c cs =>
        rw [show (c :: cs).headD ' ' = c from rfl,
          hnone c (List.mem_cons_self c cs)] at hs
        exact Bool.noConfusion hs
  have hfind : suf.find? (fun c => (siLookup c).isSome) = none := by
    refine List.find?_eq_none.mpr (fun x hx => ?_)
    rw [hnone x hx]
    simp
  simp only [parse_value, h1, h2]
  rw [if_neg (not_pct_of_alpha halpha), if_neg hcond, hfind]

/-- C6: `parse_value` returns the direct float of plain numeric tokens
(scientific notation included); a single-character SI suffix in
`{G,M,k,K,m,u,µ,n,p}` scales the numeric part by the corresponding power of
ten (`10k → 10000`, `5m → 0.005`, `2.2M → 2200000`); a multi-character
alphabetic suffix applies the first character, scanning left to right, that
is a known SI prefix (`1mA → 0.001`); and it raises a `ValueError` carrying
the offending text when the token matches no numeric+suffix pattern or no
suffix character is a known prefix. -/
theorem parse_value_contract :
    parse_value "220" = Except.ok 220 ∧
    parse_value "10k" = Except.ok 10000 ∧
    parse_value "5m" = Except.ok (1 / 200) ∧
    parse_value "2.2M" = Except.ok 2200000 ∧
    parse_value "1mA" = Except.ok (1 / 1000) ∧
    (∀ t v, pyFloatChars (trimChars t.data) = some v →
      parse_value t = Except.ok v) ∧
    (∀ t, pyFloatChars (trimChars t.data) = none →
      regexSplitChars (trimChars t.data) = none →
      parse_value t =
        Except.error ("No se pudo parsear el valor: '" ++
          String.mk (trimChars t.data) ++ "'")) ∧
    (∀ t num ch q, pyFloatChars (trimChars t.data) = none →
      regexSplitChars (trimChars t.data) = some (num, [ch]) →
      siLookup ch = some q →
      parse_value t = Except.ok ((pyFloatChars num).getD 0 * q)) ∧
    (∀ t num suf ch q, pyFloatChars (trimChars t.data) = none →
      regexSplitChars (trimChars t.data) = some (num, suf) →
      2 ≤ suf.length → suf.all isAlphaSufChar = true →
      suf.find? (fun c => (siLookup c).isSome) = some ch →
      siLookup ch = some q →
      parse_value t = Except.ok ((pyFloatChars num).getD 0 * q)) ∧
    (∀ t num suf, pyFloatChars (trimChars t.data) = none →
      regexSplitChars (trimChars t.data) = some (num, suf) →
      suf.all isAlphaSufChar = true →
      (∀ c ∈ suf, siLookup c = none) →
      parse_value t =
        Except.error ("Sufijo desconocido al parsear valor: '" ++
          String.mk suf ++ "'")) :=
  ⟨by with_unfolding_all rfl, by with_unfolding_all rfl, by with_unfolding_all rfl,
   by with_unfolding_all rfl, by with_unfolding_all rfl,
   parse_value_direct, parse_value_nomatch, parse_value_single,
   parse_value_multi, parse_value_unknown_suffix⟩

/-- Witness for C6: the general clauses applied at concrete tokens. -/
theorem parse_value_contract_witness :
    parse_value "3e2" = Except.ok 300 ∧
    parse_value "x1x" = Except.error "No se pudo parsear el valor: 'x1x'" ∧
    parse_value "7n" = Except.ok (7 / 1000000000) ∧
    parse_value "2kV" = Except.ok 2000 ∧
    parse_value "5q" = Except.error "Sufijo desconocido al parsear valor: 'q'" := by
  refine ⟨?_, ?_, ?_, ?_, ?_⟩
  · exact parse_value_contract.2.2.2.2.2.1 "3e2" 300 (by with_unfolding_all rfl)
  · exact (parse_value_contract.2.2.2.2.2.2.1 "x1x" (by with_unfolding_all rfl)
      (by with_unfolding_all rfl)).trans (by with_unfolding_all rfl)
  · exact (parse_value_contract.2.2.2.2.2.2.2.1 "7n" ['7'] 'n' (1 / 1000000000)
      (by with_unfolding_all rfl) (by with_unfolding_all rfl)
      (by with_unfolding_all rfl)).trans (by with_unfolding_all rfl)
  · exact (parse_value_contract.2.2.2.2.2.2.2.2.1 "2kV" ['2'] ['k', 'V'] 'k' 1000
      (by with_unfolding_all rfl) (by with_unfolding_all rfl)
      (by with_unfolding_all decide) (by with_unfolding_all rfl)
      (by with_unfolding_all rfl) (by with_unfolding_all rfl)).trans
      (by with_unfolding_all rfl)
  · exact (parse_value_contract.2.2.2.2.2.2.2.2.2 "5q" ['5'] ['q']
      (by with_unfolding_all rfl) (by with_unfolding_all rfl)
      (by with_unfolding_all rfl)
      (by with_unfolding_all decide)).trans (by with_unfolding_all rfl)

/-! ## Netlist-parser contract (C8) -/

theorem processLine_spec (circ : Circuit) (k : Nat) (raw : String) :
    processLine circ k raw =
      if lineAborts raw = true then
        Except.error (mkLineErr k (trimChars raw.data) (lineErrOf raw))
      else Except.ok (lineApply circ raw) := by
  unfold processLine lineAborts lineApply lineErrOf
  by_cases hc : isCommentOrBlank (trimChars raw.data)
  · simp [hc]
  · simp only [hc, Bool.false_eq_true, if_false]
    by_cases hR : (firstCharOf (splitWS (trimChars raw.data))).toUpper = 'R'
      ∧ 4 ≤ (splitWS (trimChars raw.data)).length
    · rcases hpv : parse_value (tokenAt (splitWS (trimChars raw.data)) 3) with e | v
      · simp [hR, hR.1, hR.2, hpv, exceptIsErr]
      · simp [hR, hR.1, hR.2, hpv, exceptIsErr]
    · by_cases hV : (firstCharOf (splitWS (trimChars raw.data))).toUpper = 'V'
        ∧ 4 ≤ (splitWS (trimChars raw.data)).length
      · rcases hpv : parse_value (tokenAt (splitWS (trimChars raw.data)) 3) with e | v
        · simp [hR, hV, hV.1, hV.2, hpv, exceptIsErr,
            show ¬ (firstCharOf (splitWS (trimChars raw.data))).toUpper = 'R'
              from fun h => hR ⟨h, hV.2⟩]
        · simp [hR, hV, hV.1, hV.2, hpv, exceptIsErr,
            show ¬ (firstCharOf (splitWS (trimChars raw.data))).toUpper = 'R'
              from fun h => hR ⟨h, hV.2⟩]
      · by_cases hI : (firstCharOf (splitWS (trimChars raw.data))).toUpper = 'I'
          ∧ 4 ≤ (splitWS (trimChars raw.data)).length
        · rcases hpv : parse_value (tokenAt (splitWS (trimChars raw.data)) 3) with e | v
          · simp [hR, hV, hI, hI.1, hI.2, hpv, exceptIsErr,
              show ¬ (firstCharOf (splitWS (trimChars raw.data))).toUpper = 'R'
                from fun h => hR ⟨h, hI.2⟩,
              show ¬ (firstCharOf (splitWS (trimChars raw.data))).toUpper = 'V'
                from fun h => hV ⟨h, hI.2⟩]
          · simp [hR, hV, hI, hI.1, hI.2, hpv, exceptIsErr,
              show ¬ (firstCharOf (splitWS (trimChars raw.data))).toUpper = 'R'
                from fun h => hR ⟨h, hI.2⟩,
              show ¬ (firstCharOf (splitWS (trimChars raw.data))).toUpper = 'V'
                from fun h => hV ⟨h, hI.2⟩]
        · have hfalse : ((decide ((firstCharOf (splitWS (trimChars raw.data))).toUpper = 'R') ||
              decide ((firstCharOf (splitWS (trimChars raw.data))).toUpper = 'V') ||
              decide ((firstCharOf (splitWS (trimChars raw.data))).toUpper = 'I')) &&
              decide (4 ≤ (splitWS (trimChars raw.data)).length)) = false := by
            by_cases hlen : 4 ≤ (splitWS (trimChars raw.data)).length
            · have r1 : ¬ (firstCharOf (splitWS (trimChars raw.data))).toUpper = 'R' :=
                fun h => hR ⟨h, hlen⟩
              have r2 : ¬ (firstCharOf (splitWS (trimChars raw.data))).toUpper = 'V' :=
                fun h => hV ⟨h, hlen⟩
              have r3 : ¬ (firstCharOf (splitWS (trimChars raw.data))).toUpper = 'I' :=
                fun h => hI ⟨h, hlen⟩
              simp [r1, r2, r3]
            · simp [hlen]
          simp [hR, hV, hI, hfalse]

theorem parseNetlistGo_cons (circ : Circuit) (k : Nat) (l : String)
    (t : List String) :
    parseNetlistGo circ k (l :: t) =
      match processLine circ k l with
      | Except.ok c2 => parseNetlistGo c2 (k + 1) t
      | Except.error e => Except.error e := rfl

theorem parseNetlistGo_err (ls : List String) : ∀ (circ : Circuit) (k : Nat),
    exceptIsErr (parseNetlistGo circ k ls) = ls.any lineAborts := by
  induction ls with
  | nil => intro circ k; rfl
  | cons l t ih =>
      intro circ k
      rw [parseNetlistGo_cons, processLine_spec]
      by_cases hl : lineAborts l = true
      · simp [hl, exceptIsErr]
      · have hl2 : lineAborts l = false := by
          revert hl; cases lineAborts l <;> simp
        simp [hl2, ih]

theorem parseNetlistGo_first_err (ls : List String) :
    ∀ (circ : Circuit) (k idx : Nat), idx < ls.length →
      (∀ j, j < idx → lineAborts (ls.getD j "") = false) →
      lineAborts (ls.getD idx "") = true →
      parseNetlistGo circ k ls =
        Except.error (mkLineErr (k + idx) (trimChars (ls.getD idx "").data)
          (lineErrOf (ls.getD idx ""))) := by
  induction ls with
  | nil => intro circ k idx h; simp at h
  | cons l t ih =>
      intro circ k idx hlen hprev habort
      rw [parseNetlistGo_cons, processLine_spec]
      cases idx with
      | zero =>
          rw [if_pos (by exact habort)]
          rfl
      | succ idx2 =>
          have h0 : lineAborts l = false := hprev 0 (Nat.succ_pos _)
          rw [if_neg (by rw [h0]; exact Bool.false_ne_true)]
          have hrec := ih (lineApply circ l) (k + 1) idx2 (by simpa using hlen)
            (fun j hj => hprev (j + 1) (by omega)) habort
          rw [show k + 1 + idx2 = k + (idx2 + 1) from by omega] at hrec
          exact hrec

theorem parseNetlistGo_toOption_k (ls : List String) :
    ∀ (circ : Circuit) (k k2 : Nat),
      (parseNetlistGo circ k ls).toOption = (parseNetlistGo circ k2 ls).toOption := by
  induction ls with
  | nil => intros; rfl
  | cons l t ih =>
      intro circ k k2
      rw [parseNetlistGo_cons, parseNetlistGo_cons, processLine_spec,
        processLine_spec]
      by_cases hl : lineAborts l = true
      · simp [hl, Except.toOption]
      · have hl2 : lineAborts l = false := by
          revert hl; cases lineAborts l <;> simp
        simp only [hl2, Bool.false_eq_true, if_false]
        exact ih (lineApply circ l) (k + 1) (k2 + 1)

theorem bool_not_true {b : Bool} (h : (!b) = true) : b = false := by
  cases b
  · rfl
  · exact absurd h (by decide)

theorem lineSkipped_cond_false (raw : String) (h : lineSkipped raw = true)
    (hc : ¬ isCommentOrBlank (trimChars raw.data) = true) :
    ((decide ((firstCharOf (splitWS (trimChars raw.data))).toUpper = 'R') ||
      decide ((firstCharOf (splitWS (trimChars raw.data))).toUpper = 'V') ||
      decide ((firstCharOf (splitWS (trimChars raw.data))).toUpper = 'I')) &&
      decide (4 ≤ (splitWS (trimChars raw.data)).length)) = false := by
  simp only [lineSkipped] at h
  rw [if_neg hc] at h
  exact bool_not_true h

theorem lineSkipped_no_abort (raw : String) (h : lineSkipped raw = true) :
    lineAborts raw = false := by
  simp only [lineAborts]
  by_cases hc : isCommentOrBlank (trimChars raw.data)
  · simp [hc]
  · rw [if_neg hc, lineSkipped_cond_false raw h hc, Bool.false_and]

theorem lineSkipped_apply (circ : Circuit) (raw : String)
    (h : lineSkipped raw = true) : lineApply circ raw = circ := by
  simp only [lineApply]
  by_cases hc : isCommentOrBlank (trimChars raw.data)
  · simp [hc]
  · have hb := lineSkipped_cond_false raw h hc
    have hnR : ¬ ((firstCharOf (splitWS (trimChars raw.data))).toUpper = 'R' ∧
        4 ≤ (splitWS (trimChars raw.data)).length) := by
      rintro ⟨h1, h2⟩; simp [h1, h2] at hb
    have hnV : ¬ ((firstCharOf (splitWS (trimChars raw.data))).toUpper = 'V' ∧
        4 ≤ (splitWS (trimChars raw.data)).length) := by
      rintro ⟨h1, h2⟩; simp [h1, h2] at hb
    have hnI : ¬ ((firstCharOf (splitWS (trimChars raw.data))).toUpper = 'I' ∧
        4 ≤ (splitWS (trimChars raw.data)).length) := by
      rintro ⟨h1, h2⟩; simp [h1, h2] at hb
    rw [if_neg hc, if_neg hnR, if_neg hnV, if_neg hnI]

theorem parseNetlistGo_skip_insert (l : String) (hskip : lineSkipped l = true)
    (post : List String) : ∀ (pre : List String) (circ : Circuit) (k : Nat),
    (parseNetlistGo circ k (pre ++ l :: post)).toOption =
      (parseNetlistGo circ k (pre ++ post)).toOption := by
  intro pre
  induction pre with
  | nil =>
      intro circ k
      simp only [List.nil_append]
      rw [parseNetlistGo_cons, processLine_spec,
        if_neg (by rw [lineSkipped_no_abort l hskip]; exact Bool.false_ne_true),
        lineSkipped_apply circ l hskip]
      exact parseNetlistGo_toOption_k post circ (k + 1) k
  | cons p pre2 ih =>
      intro circ k
      simp only [List.cons_append]
      rw [parseNetlistGo_cons, parseNetlistGo_cons, processLine_spec]
      by_cases hp : lineAborts p = true
      · simp [hp, Except.toOption]
      · have hp2 : lineAborts p = false := by
          revert hp; cases lineAborts p <;> simp
        simp only [hp2, Bool.false_eq_true, if_false]
        exact ih (lineApply circ p) (k + 1)

/-- C8: `parse_netlist_lines` (1) errors exactly when some line is a
recognised element line (leading `R`/`V`/`I`, at least 4 tokens) whose value
token fails to parse — so blank, comment, unrecognised and short lines never
abort loading; (2) on the first such line the raised error wraps the 1-based
line number, the (stripped) line text and the inner parse error, and — the
return type being `Except` — no circuit, not even a partial one, is
returned; (3) inserting a skipped line anywhere changes nothing about the
outcome (same circuit on success, still an error on failure). -/
theorem parse_netlist_contract :
    (∀ lines, exceptIsErr (parse_netlist_lines lines) = lines.any lineAborts) ∧
    (∀ lines idx, idx < lines.length →
      (∀ j, j < idx → lineAborts (lines.getD j "") = false) →
      lineAborts (lines.getD idx "") = true →
      parse_netlist_lines lines =
        Except.error (mkLineErr (idx + 1) (trimChars (lines.getD idx "").data)
          (lineErrOf (lines.getD idx "")))) ∧
    (∀ pre post l, lineSkipped l = true →
      (parse_netlist_lines (pre ++ l :: post)).toOption =
        (parse_netlist_lines (pre ++ post)).toOption) := by
  refine ⟨fun lines => parseNetlistGo_err lines Circuit.empty 1,
    fun lines idx h1 h2 h3 => ?_,
    fun pre post l hskip => parseNetlistGo_skip_insert l hskip post pre Circuit.empty 1⟩
  rw [parse_netlist_lines, parseNetlistGo_first_err lines Circuit.empty 1 idx h1 h2 h3,
    Nat.add_comm]

/-- Witness for C8: the contract applied to concrete netlists. -/
theorem parse_netlist_contract_witness :
    exceptIsErr (parse_netlist_lines demoLines) = demoLines.any lineAborts ∧
    parse_netlist_lines demoLines =
      Except.error (mkLineErr 3 (trimChars "R1 1 2 zz".data) (lineErrOf "R1 1 2 zz")) ∧
    (parse_netlist_lines (["# comment"] ++ ["R1 1 0 5"])).toOption =
      (parse_netlist_lines ["R1 1 0 5"]).toOption := by
  refine ⟨parse_netlist_contract.1 demoLines, ?_, ?_⟩
  · exact parse_netlist_contract.2.1 demoLines 2 (by with_unfolding_all decide)
      (by with_unfolding_all decide) (by with_unfolding_all rfl)
  · exact parse_netlist_contract.2.2 [] ["R1 1 0 5"] "# comment"
      (by with_unfolding_all rfl)

end CircuitSim
